import Mathlib

/-!
Verification of the link-validation pass and the rendering event records of a
documentation generator.  The definitions below are a shallow embedding of
`validateLinks` (and its helpers) and of the `PageEvent` / `IndexEvent`
classes from `src/lib/output/events.ts`; the theorems settle the frozen
claims about them.
-/

set_option maxHeartbeats 1000000

/-- Modelled from the spec: a present target of an inline-tag display part is
either the unresolved `ReflectionSymbolId` placeholder ("a link was recognized
syntactically but not bound to any known declaration") or a bound resolved
reference.  The concrete target type lives in the models module, which is not
part of the excerpt; both alternatives are objects, hence truthy in the
source language, so `!part.target` holds exactly when the target is absent. -/
inductive LinkTarget where
  | symbolId (qualifiedName : String)
  | resolved (id : Nat)
deriving DecidableEq, Repr

/-- `CommentDisplayPart`: a typed span of comment text — plain text, a code
span, or an inline tag (such as a cross-reference link) with an optional
target. -/
inductive CommentDisplayPart where
  | text (text : String)
  | code (text : String)
  | inlineTag (tag : String) (text : String) (target : Option LinkTarget)
deriving DecidableEq, Repr

/-- A block tag of a comment; only its `content` display parts matter here. -/
structure BlockTag where
  content : List CommentDisplayPart
deriving DecidableEq, Repr

/-- A structured comment: a summary plus an ordered list of block tags. -/
structure Comment where
  summary : List CommentDisplayPart
  blockTags : List BlockTag
deriving DecidableEq, Repr

/-- `const linkTags = ["@link", "@linkcode", "@linkplain"];` -/
def linkTags : List String := ["@link", "@linkcode", "@linkplain"]

/-- `text.startsWith(c)` for a one-character prefix, at the character level:
true when the first character of `s` is `c`. -/
def startsWithChar (s : String) (c : Char) : Bool :=
  match s.data with
  | [] => false
  | c0 :: _ => c0 = c

/-- `text.includes(c)` for a one-character needle, at the character level. -/
def containsChar (s : String) (c : Char) : Bool :=
  s.data.contains c

/-- `text.trim()`: strip leading and trailing whitespace characters, at the
character level. -/
def jsTrim (s : String) : String :=
  String.mk
    (((s.data.dropWhile Char.isWhitespace).reverse.dropWhile
        Char.isWhitespace).reverse)

/-- `getBrokenPartLinks`: scan the parts in order and collect the trimmed
text of every inline-tag part whose tag is a link tag and whose target is
absent (`!part.target`) or is the `ReflectionSymbolId` placeholder
(`part.target instanceof ReflectionSymbolId`). -/
def getBrokenPartLinks : List CommentDisplayPart → List String
  | [] => []
  | part :: rest =>
    match part with
    | .inlineTag tag text target =>
      if linkTags.contains tag &&
          (target.isNone ||
            (match target with
             | some (.symbolId _) => true
             | _ => false))
      then jsTrim text :: getBrokenPartLinks rest
      else getBrokenPartLinks rest
    | _ => getBrokenPartLinks rest

/-- `getBrokenLinks`: the broken links of a possibly-absent comment — those of
the summary, then those of each block tag's content, accumulated in order. -/
def getBrokenLinks : Option Comment → List String
  | none => []
  | some comment =>
    comment.blockTags.foldl
      (fun links tag => links ++ getBrokenPartLinks tag.content)
      (getBrokenPartLinks comment.summary)

/-- Modelled from the spec: the declaration kinds the validator distinguishes;
`kindOf(ReflectionKind.TypeAlias)` holds exactly for the type-alias kind. -/
inductive DeclKind where
  | typeAlias
  | otherKind
deriving DecidableEq, Repr

/-- Modelled from the spec: the slice of a declaration's type the validator
reads — `type?.type === "union"` together with the optional per-union-member
`elementSummaries` (one display-part sequence per union member). -/
inductive SomeType where
  | union (elementSummaries : Option (List (List CommentDisplayPart)))
  | otherType
deriving DecidableEq, Repr

/-- Modelled from the spec: the reflection variants the validator
distinguishes via `isProject` / `isDeclaration` / `isDocument`, with the
variant-specific fields it reads (`readme`, `content`, declaration kind and
type). -/
inductive ReflectionVariant where
  | project (readme : Option (List CommentDisplayPart))
  | declaration (readme : Option (List CommentDisplayPart))
      (kind : DeclKind) (type : Option SomeType)
  | document (content : List CommentDisplayPart)
  | otherVariant
deriving DecidableEq, Repr

/-- Modelled from the spec: a reflection node — a stable integer id, an
optional comment, the derived friendly full name (stored as data here, its
derivation is out of scope), and the variant-specific data. -/
structure Reflection where
  id : Nat
  friendlyFullName : String
  comment : Option Comment
  variant : ReflectionVariant
deriving DecidableEq, Repr

/-- `reflection.isProject()` -/
def Reflection.isProject (r : Reflection) : Bool :=
  match r.variant with
  | .project _ => true
  | _ => false

/-- `reflection.isDeclaration()` -/
def Reflection.isDeclaration (r : Reflection) : Bool :=
  match r.variant with
  | .declaration _ _ _ => true
  | _ => false

/-- `reflection.isDocument()` -/
def Reflection.isDocument (r : Reflection) : Bool :=
  match r.variant with
  | .document _ => true
  | _ => false

/-- `reflection.readme` — present only on project and declaration variants. -/
def Reflection.readme? (r : Reflection) : Option (List CommentDisplayPart) :=
  match r.variant with
  | .project rd => rd
  | .declaration rd _ _ => rd
  | _ => none

/-- `reflection.content` of a document reflection (empty elsewhere; the
source only reads it under `isDocument()`). -/
def Reflection.docContent (r : Reflection) : List CommentDisplayPart :=
  match r.variant with
  | .document content => content
  | _ => []

/-- The six i18n diagnostic templates the validator instantiates, one
constructor per template:
`failed_to_resolve_link_to_0_in_readme_for_1_may_have_meant_2`,
`failed_to_resolve_link_to_0_in_readme_for_1`,
`failed_to_resolve_link_to_0_in_document_1_may_have_meant_2`,
`failed_to_resolve_link_to_0_in_document_1`,
`failed_to_resolve_link_to_0_in_comment_for_1_may_have_meant_2`,
`failed_to_resolve_link_to_0_in_comment_for_1`. -/
inductive Warning where
  | readme_suggest (link name suggestion : String)
  | readme_plain (link name : String)
  | document_suggest (link name suggestion : String)
  | document_plain (link name : String)
  | comment_suggest (link name suggestion : String)
  | comment_plain (link name : String)
deriving DecidableEq, Repr

/-- `broken.replace(/[.#~]/, "!")` on the character list: replace the first
occurrence of `.`, `#` or `~` with `!`; no occurrence leaves it unchanged. -/
def replaceFirstSep : List Char → List Char
  | [] => []
  | c :: rest =>
    if c = '.' ∨ c = '#' ∨ c = '~' then '!' :: rest
    else c :: replaceFirstSep rest

/-- `broken.replace(/[.#~]/, "!")` as a string operation. -/
def suggestLink (s : String) : String :=
  String.mk (replaceFirstSep s.data)

/-- The heuristic guard shared by all four emission sites:
`broken.startsWith("@") && !broken.includes("!")`. -/
def likelyScopedPackage (broken : String) : Bool :=
  startsWithChar broken '@' && !(containsChar broken '!')

/-- Loop body of the readme source: pick the with-suggestion or the plain
readme template for one broken link text. -/
def readmeWarning (r : Reflection) (broken : String) : Warning :=
  if likelyScopedPackage broken then
    .readme_suggest broken r.friendlyFullName (suggestLink broken)
  else
    .readme_plain broken r.friendlyFullName

/-- Loop body of the document source. -/
def documentWarning (r : Reflection) (broken : String) : Warning :=
  if likelyScopedPackage broken then
    .document_suggest broken r.friendlyFullName (suggestLink broken)
  else
    .document_plain broken r.friendlyFullName

/-- Loop body of the comment source. -/
def commentWarning (r : Reflection) (broken : String) : Warning :=
  if likelyScopedPackage broken then
    .comment_suggest broken r.friendlyFullName (suggestLink broken)
  else
    .comment_plain broken r.friendlyFullName

/-- Loop body of the union-member-summaries source.  The source duplicates
the comment branch here and instantiates the same two comment templates. -/
def unionSummaryWarning (r : Reflection) (broken : String) : Warning :=
  if likelyScopedPackage broken then
    .comment_suggest broken r.friendlyFullName (suggestLink broken)
  else
    .comment_plain broken r.friendlyFullName

/-- Broken link texts of the readme source:
`getBrokenPartLinks(reflection.readme || [])` under
`isProject() || isDeclaration()`. -/
def readmeBrokenTexts (r : Reflection) : List String :=
  if r.isProject || r.isDeclaration then
    getBrokenPartLinks (r.readme?.getD [])
  else []

/-- Broken link texts of the document source:
`getBrokenPartLinks(reflection.content)` under `isDocument()`. -/
def documentBrokenTexts (r : Reflection) : List String :=
  if r.isDocument then getBrokenPartLinks r.docContent else []

/-- Broken link texts of the comment source: `getBrokenLinks(reflection.comment)`. -/
def commentBrokenTexts (r : Reflection) : List String :=
  getBrokenLinks r.comment

/-- Broken link texts of the union-member-summaries source:
`reflection.type.elementSummaries.flatMap(getBrokenPartLinks)` under
`isDeclaration() && kindOf(TypeAlias) && type?.type === "union" &&
type.elementSummaries`. -/
def unionSummaryBrokenTexts (r : Reflection) : List String :=
  match r.variant with
  | .declaration _ .typeAlias (some (.union (some elementSummaries))) =>
    elementSummaries.flatMap getBrokenPartLinks
  | _ => []

/-- Warnings of the readme source, in emission order. -/
def readmeWarnings (r : Reflection) : List Warning :=
  (readmeBrokenTexts r).map (readmeWarning r)

/-- Warnings of the document source, in emission order. -/
def documentWarnings (r : Reflection) : List Warning :=
  (documentBrokenTexts r).map (documentWarning r)

/-- Warnings of the comment source, in emission order. -/
def commentWarnings (r : Reflection) : List Warning :=
  (commentBrokenTexts r).map (commentWarning r)

/-- Warnings of the union-member-summaries source, in emission order. -/
def unionSummaryWarnings (r : Reflection) : List Warning :=
  (unionSummaryBrokenTexts r).map (unionSummaryWarning r)

/-- `checkReflection(reflection, logger)`: the warnings one reflection emits,
in order — readme source, then document source, then comment source, then
union-member-summaries source. -/
def checkReflection (r : Reflection) : List Warning :=
  readmeWarnings r ++ documentWarnings r ++ commentWarnings r
    ++ unionSummaryWarnings r

/-- Modelled from the spec: the project root is itself a reflection node
(`ProjectReflection` extends `Reflection`); `reflections` is its id-indexed
mapping, embedded as an association list enumerated in key order. -/
structure ProjectReflection where
  root : Reflection
  reflections : List (Nat × Reflection)
deriving DecidableEq, Repr

/-- `validateLinks(project, logger)`: run `checkReflection` for every id in
`project.reflections`, then on the project itself when
`!(project.id in project.reflections)`; the result is the ordered list of
emitted warnings. -/
def validateLinks (p : ProjectReflection) : List Warning :=
  p.reflections.foldl (fun acc kv => acc ++ checkReflection kv.2) []
    ++ (if p.reflections.any (fun kv => kv.1 == p.root.id) then []
        else checkReflection p.root)

/-- The sequence of reflections `validateLinks` invokes `checkReflection`
on, mirroring the same control flow: every value of the mapping in
enumeration order, then the root when its id is not a key. -/
def validateLinksTrace (p : ProjectReflection) : List Reflection :=
  p.reflections.foldl (fun acc kv => acc ++ [kv.2]) []
    ++ (if p.reflections.any (fun kv => kv.1 == p.root.id) then []
        else [p.root])

/-- The broken link text a warning reports (first template parameter). -/
def warningText : Warning → String
  | .readme_suggest link _ _ => link
  | .readme_plain link _ => link
  | .document_suggest link _ _ => link
  | .document_plain link _ => link
  | .comment_suggest link _ _ => link
  | .comment_plain link _ => link

/-- The suggested replacement a with-suggestion warning carries (third
template parameter), absent on the plain variants. -/
def warningSuggestion : Warning → Option String
  | .readme_suggest _ _ suggestion => some suggestion
  | .document_suggest _ _ suggestion => some suggestion
  | .comment_suggest _ _ suggestion => some suggestion
  | _ => none

/-- Whether a warning is one of the three with-suggestion templates. -/
def isSuggestVariant (w : Warning) : Bool :=
  (warningSuggestion w).isSome

/-- Whether a warning instantiates one of the two readme templates. -/
def isReadmeVariant : Warning → Bool
  | .readme_suggest _ _ _ => true
  | .readme_plain _ _ => true
  | _ => false

/-- Whether a warning instantiates one of the two document templates. -/
def isDocumentVariant : Warning → Bool
  | .document_suggest _ _ _ => true
  | .document_plain _ _ => true
  | _ => false

/-- Whether a warning instantiates one of the two comment templates. -/
def isCommentVariant : Warning → Bool
  | .comment_suggest _ _ _ => true
  | .comment_plain _ _ => true
  | _ => false

/-- Spec-side predicate for the extraction claim, following the claim's
words: a part contributes exactly when its kind is inline-tag, its tag is one
of the three link-tag spellings, and its target is absent or is the
`ReflectionSymbolId` placeholder. -/
def brokenLinkPartSpec : CommentDisplayPart → Bool
  | .inlineTag tag _ target =>
    linkTags.contains tag &&
      (match target with
       | none => true
       | some (.symbolId _) => true
       | some (.resolved _) => false)
  | _ => false

/-- The raw `text` field of a display part. -/
def partText : CommentDisplayPart → String
  | .text text => text
  | .code text => text
  | .inlineTag _ text _ => text

theorem foldl_append_eq_flatMap {α β : Type} (f : α → List β) (l : List α) :
    ∀ init : List β,
      l.foldl (fun acc t => acc ++ f t) init = init ++ l.flatMap f := by
  induction l with
  | nil => intro init; simp
  | cons t rest ih =>
    intro init
    simp only [List.foldl_cons, List.flatMap_cons, ih, List.append_assoc]

theorem validateLinks_eq_trace_flatMap (p : ProjectReflection) :
    validateLinks p = (validateLinksTrace p).flatMap checkReflection := by
  unfold validateLinks validateLinksTrace
  rw [foldl_append_eq_flatMap, foldl_append_eq_flatMap]
  simp only [List.nil_append, List.flatMap_append]
  congr 1
  · induction p.reflections with
    | nil => rfl
    | cons kv rest ih => simp [ih]
  · split
    · rfl
    · simp

theorem mem_validateLinks_mem_check (p : ProjectReflection) (w : Warning)
    (hw : w ∈ validateLinks p) : ∃ r : Reflection, w ∈ checkReflection r := by
  rw [validateLinks_eq_trace_flatMap] at hw
  obtain ⟨r, -, hr⟩ := List.mem_flatMap.mp hw
  exact ⟨r, hr⟩

theorem brokenCond_eq_spec (tag text : String) (target : Option LinkTarget) :
    (linkTags.contains tag &&
        (target.isNone ||
          (match target with
           | some (.symbolId _) => true
           | _ => false)))
      = brokenLinkPartSpec (.inlineTag tag text target) := by
  cases target with
  | none => simp [brokenLinkPartSpec]
  | some t => cases t <;> simp [brokenLinkPartSpec]

/-- Claim C2: `getBrokenPartLinks` returns exactly the trimmed text of the
parts that are inline tags with a recognized link tag and an absent or
unresolved-placeholder target; every other part (text, code, non-link tags,
resolved targets) contributes nothing. -/
theorem getBrokenPartLinks_exactly_broken (parts : List CommentDisplayPart) :
    getBrokenPartLinks parts
      = (parts.filter brokenLinkPartSpec).map (fun part => jsTrim (partText part)) := by
  induction parts with
  | nil => rfl
  | cons part rest ih =>
    cases part with
    | text t =>
      simp [getBrokenPartLinks, List.filter_cons, brokenLinkPartSpec, ih]
    | code t =>
      simp [getBrokenPartLinks, List.filter_cons, brokenLinkPartSpec, ih]
    | inlineTag tag text target =>
      have hc := brokenCond_eq_spec tag text target
      simp only [getBrokenPartLinks]
      rw [hc, List.filter_cons]
      cases h : brokenLinkPartSpec (CommentDisplayPart.inlineTag tag text target) with
      | true => simp [ih, partText]
      | false => simp [ih]

/-- Claim C9: the broken links of a comment are exactly those of its summary
followed by those of each block tag's content in block-tag order, and a
reflection without a comment contributes no comment-source links. -/
theorem getBrokenLinks_summary_then_blockTags (comment : Comment) :
    getBrokenLinks (some comment)
      = getBrokenPartLinks comment.summary
        ++ comment.blockTags.flatMap (fun tag => getBrokenPartLinks tag.content) ∧
    getBrokenLinks none = [] ∧
    ∀ r : Reflection, r.comment = none → commentBrokenTexts r = [] := by
  refine ⟨?_, rfl, ?_⟩
  · simp only [getBrokenLinks]
    rw [foldl_append_eq_flatMap]
  · intro r hr
    simp [commentBrokenTexts, hr, getBrokenLinks]

theorem check_warning_classified (r : Reflection) (w : Warning)
    (hw : w ∈ checkReflection r) :
    isSuggestVariant w = likelyScopedPackage (warningText w) ∧
    warningSuggestion w
      = (if likelyScopedPackage (warningText w) then
          some (suggestLink (warningText w))
        else none) := by
  simp only [checkReflection, List.mem_append, readmeWarnings, documentWarnings,
    commentWarnings, unionSummaryWarnings, List.mem_map] at hw
  rcases hw with ((⟨b, -, rfl⟩ | ⟨b, -, rfl⟩) | ⟨b, -, rfl⟩) | ⟨b, -, rfl⟩
  · cases h : likelyScopedPackage b with
    | true => simp [readmeWarning, h, warningText, warningSuggestion, isSuggestVariant]
    | false => simp [readmeWarning, h, warningText, warningSuggestion, isSuggestVariant]
  · cases h : likelyScopedPackage b with
    | true => simp [documentWarning, h, warningText, warningSuggestion, isSuggestVariant]
    | false => simp [documentWarning, h, warningText, warningSuggestion, isSuggestVariant]
  · cases h : likelyScopedPackage b with
    | true => simp [commentWarning, h, warningText, warningSuggestion, isSuggestVariant]
    | false => simp [commentWarning, h, warningText, warningSuggestion, isSuggestVariant]
  · cases h : likelyScopedPackage b with
    | true => simp [unionSummaryWarning, h, warningText, warningSuggestion, isSuggestVariant]
    | false => simp [unionSummaryWarning, h, warningText, warningSuggestion, isSuggestVariant]

/-- Claim C1: for every warning `validateLinks` emits, if the reported text
starts with `@` and does not contain `!` then the warning is a
with-suggestion variant whose suggestion replaces the first occurrence of
`.`, `#` or `~` by `!` (so `"@scope/pkg.Thing"` yields
`"@scope/pkg!Thing"`); otherwise it is a plain variant carrying the text
unchanged and no suggestion. -/
theorem validateLinks_classification (p : ProjectReflection) (w : Warning)
    (hw : w ∈ validateLinks p) :
    (if startsWithChar (warningText w) '@' && !(containsChar (warningText w) '!') then
      isSuggestVariant w = true ∧
        warningSuggestion w = some (suggestLink (warningText w))
    else
      isSuggestVariant w = false ∧ warningSuggestion w = none) ∧
    suggestLink "@scope/pkg.Thing" = "@scope/pkg!Thing" := by
  obtain ⟨r, hr⟩ := mem_validateLinks_mem_check p w hw
  obtain ⟨h1, h2⟩ := check_warning_classified r w hr
  have hl : (startsWithChar (warningText w) '@' && !(containsChar (warningText w) '!'))
      = likelyScopedPackage (warningText w) := rfl
  refine ⟨?_, by decide⟩
  rw [hl]
  cases h : likelyScopedPackage (warningText w) with
  | true =>
    rw [h] at h1 h2
    simp [h1, h2]
  | false =>
    rw [h] at h1 h2
    simp [h1, h2, isSuggestVariant]

/-- A document reflection whose content holds one ordinary broken link. -/
def c1Document : Reflection :=
  { id := 2, friendlyFullName := "Doc", comment := none,
    variant := .document [.inlineTag "@link" "Foo.Bar" none] }

/-- A project whose only reflection is `c1Document`. -/
def c1Project : ProjectReflection :=
  { root := { id := 0, friendlyFullName := "Proj", comment := none,
              variant := .project none },
    reflections := [(2, c1Document)] }

/-- Witness for claim C1 at the concrete broken link `"Foo.Bar"` inside a
document: the plain variant is emitted, text unchanged, no suggestion. -/
theorem validateLinks_classification_witness :
    (if startsWithChar (warningText (Warning.document_plain "Foo.Bar" "Doc")) '@'
        && !(containsChar (warningText (Warning.document_plain "Foo.Bar" "Doc")) '!') then
      isSuggestVariant (Warning.document_plain "Foo.Bar" "Doc") = true ∧
        warningSuggestion (Warning.document_plain "Foo.Bar" "Doc")
          = some (suggestLink (warningText (Warning.document_plain "Foo.Bar" "Doc")))
    else
      isSuggestVariant (Warning.document_plain "Foo.Bar" "Doc") = false ∧
        warningSuggestion (Warning.document_plain "Foo.Bar" "Doc") = none) ∧
    suggestLink "@scope/pkg.Thing" = "@scope/pkg!Thing" :=
  validateLinks_classification c1Project
    (Warning.document_plain "Foo.Bar" "Doc") (by decide)

theorem replaceFirstSep_id (cs : List Char)
    (hDot : cs.contains '.' = false)
    (hHash : cs.contains '#' = false)
    (hTilde : cs.contains '~' = false) :
    replaceFirstSep cs = cs := by
  induction cs with
  | nil => rfl
  | cons c rest ih =>
    simp only [List.contains_cons, Bool.or_eq_false_iff] at hDot hHash hTilde
    have hc : ¬(c = '.' ∨ c = '#' ∨ c = '~') := by
      rintro (rfl | rfl | rfl) <;> simp_all
    simp only [replaceFirstSep, if_neg hc]
    rw [ih hDot.2 hHash.2 hTilde.2]

/-- Claim C10: a broken link text starting with `@`, containing no `!` and
containing none of `.`, `#`, `~` still yields the with-suggestion variant,
and the suggested text it carries is the original text unchanged. -/
theorem validateLinks_noop_suggestion (p : ProjectReflection) (w : Warning)
    (hw : w ∈ validateLinks p)
    (hAt : startsWithChar (warningText w) '@' = true)
    (hBang : containsChar (warningText w) '!' = false)
    (hDot : containsChar (warningText w) '.' = false)
    (hHash : containsChar (warningText w) '#' = false)
    (hTilde : containsChar (warningText w) '~' = false) :
    isSuggestVariant w = true ∧ warningSuggestion w = some (warningText w) := by
  obtain ⟨r, hr⟩ := mem_validateLinks_mem_check p w hw
  obtain ⟨h1, h2⟩ := check_warning_classified r w hr
  have hl : likelyScopedPackage (warningText w) = true := by
    simp [likelyScopedPackage, hAt, hBang]
  have hid : suggestLink (warningText w) = warningText w := by
    unfold suggestLink
    rw [replaceFirstSep_id (warningText w).data hDot hHash hTilde]
  rw [hl] at h1 h2
  simp only [if_true] at h2
  exact ⟨h1, by rw [h2, hid]⟩

/-- A reflection whose comment summary holds the broken link `"@scope"`. -/
def c10Reflection : Reflection :=
  { id := 1, friendlyFullName := "Example",
    comment := some { summary := [.inlineTag "@link" "@scope" none],
                      blockTags := [] },
    variant := .otherVariant }

/-- A project whose only reflection is `c10Reflection`. -/
def c10Project : ProjectReflection :=
  { root := { id := 0, friendlyFullName := "Proj", comment := none,
              variant := .project none },
    reflections := [(1, c10Reflection)] }

/-- Witness for claim C10 at the concrete broken link `"@scope"`: the
emitted warning is the with-suggestion comment variant and its suggestion is
`"@scope"` itself. -/
theorem validateLinks_noop_suggestion_witness :
    isSuggestVariant (Warning.comment_suggest "@scope" "Example" "@scope") = true ∧
    warningSuggestion (Warning.comment_suggest "@scope" "Example" "@scope")
      = some (warningText (Warning.comment_suggest "@scope" "Example" "@scope")) :=
  validateLinks_noop_suggestion c10Project
    (Warning.comment_suggest "@scope" "Example" "@scope")
    (by decide) (by decide) (by decide) (by decide) (by decide) (by decide)

/-- A type-alias declaration whose only broken link sits in a union member's
element summary. -/
def unionAliasExample : Reflection :=
  { id := 1, friendlyFullName := "T", comment := none,
    variant := .declaration none .typeAlias
      (some (.union (some [[.inlineTag "@link" "Missing" none]]))) }

/-- A reflection carrying the identical broken link in its comment summary. -/
def commentExample : Reflection :=
  { id := 1, friendlyFullName := "T",
    comment := some { summary := [.inlineTag "@link" "Missing" none],
                      blockTags := [] },
    variant := .otherVariant }

/-- Claim C4 counterexample: the broken link `"Missing"` found in a union
member's element summary of `unionAliasExample` is reported with the
comment-source template `failed_to_resolve_link_to_0_in_comment_for_1` —
exactly the warning the identical link in `commentExample`'s comment
produces — so there is no distinct union-summary-specific message and only
six templates exist, not eight. -/
theorem unionSummary_message_not_distinct :
    checkReflection unionAliasExample = [Warning.comment_plain "Missing" "T"] ∧
    checkReflection unionAliasExample = checkReflection commentExample :=
  ⟨by decide, by decide⟩

/-- Claim C4 (amended): the readme, document and comment sources each emit
their own pair of templates — six distinct parameterized templates in total
(readme/document/comment × with-suggestion/without-suggestion) — while the
union-member-summary source reuses the two comment-source templates, so a
broken link in a union member's element summary produces the comment-source
message. -/
theorem warnings_by_source (r : Reflection) :
    (∀ w ∈ readmeWarnings r, isReadmeVariant w = true) ∧
    (∀ w ∈ documentWarnings r, isDocumentVariant w = true) ∧
    (∀ w ∈ commentWarnings r, isCommentVariant w = true) ∧
    (∀ w ∈ unionSummaryWarnings r, isCommentVariant w = true) := by
  refine ⟨?_, ?_, ?_, ?_⟩
  · intro w hw
    obtain ⟨b, -, rfl⟩ := List.mem_map.mp hw
    unfold readmeWarning
    split <;> rfl
  · intro w hw
    obtain ⟨b, -, rfl⟩ := List.mem_map.mp hw
    unfold documentWarning
    split <;> rfl
  · intro w hw
    obtain ⟨b, -, rfl⟩ := List.mem_map.mp hw
    unfold commentWarning
    split <;> rfl
  · intro w hw
    obtain ⟨b, -, rfl⟩ := List.mem_map.mp hw
    unfold unionSummaryWarning
    split <;> rfl

/-- Witness for the amended claim C4: the warning the union-summary source
of `unionAliasExample` emits is a comment-source variant. -/
theorem warnings_by_source_witness :
    isCommentVariant (Warning.comment_plain "Missing" "T") = true :=
  (warnings_by_source unionAliasExample).2.2.2
    (Warning.comment_plain "Missing" "T") (by decide)

theorem validateLinksTrace_eq (p : ProjectReflection) :
    validateLinksTrace p
      = p.reflections.map Prod.snd
        ++ (if p.reflections.any (fun kv => kv.1 == p.root.id) then []
            else [p.root]) := by
  unfold validateLinksTrace
  congr 1
  rw [foldl_append_eq_flatMap]
  rw [List.nil_append]
  induction p.reflections with
  | nil => rfl
  | cons kv rest ih => simp [ih]

/-- Claim C3: assuming the mapping's invariants — every stored reflection
carries the id it is stored under, the entry at the root's id (if any) is the
root itself, and keys are unique — `validateLinks` runs `checkReflection`
exactly once per stored reflection, plus exactly once on the root when its id
is not a key; every reflection and the root are visited exactly once. -/
theorem validateLinks_visits_each_once (p : ProjectReflection)
    (hids : ∀ kv ∈ p.reflections, (kv : Nat × Reflection).2.id = kv.1)
    (hroot : ∀ kv ∈ p.reflections, kv.1 = p.root.id → kv.2 = p.root)
    (hnodup : (p.reflections.map Prod.fst).Nodup) :
    validateLinks p = (validateLinksTrace p).flatMap checkReflection ∧
    (∀ kv ∈ p.reflections, (validateLinksTrace p).count kv.2 = 1) ∧
    (validateLinksTrace p).count p.root = 1 := by
  have hvalNodup : (p.reflections.map Prod.snd).Nodup := by
    have hmapid : (p.reflections.map Prod.snd).map Reflection.id
        = p.reflections.map Prod.fst := by
      rw [List.map_map]
      exact List.map_congr_left hids
    exact List.Nodup.of_map Reflection.id (hmapid ▸ hnodup)
  have hanyIff : p.reflections.any (fun kv => kv.1 == p.root.id) = true
      ↔ ∃ kv ∈ p.reflections, kv.1 = p.root.id := by
    rw [List.any_eq_true]
    constructor
    · rintro ⟨kv, hkv, hb⟩
      exact ⟨kv, hkv, by simpa using hb⟩
    · rintro ⟨kv, hkv, hb⟩
      exact ⟨kv, hkv, by simpa using hb⟩
  refine ⟨validateLinks_eq_trace_flatMap p, ?_, ?_⟩
  · intro kv hkv
    rw [validateLinksTrace_eq, List.count_append]
    have h1 : (p.reflections.map Prod.snd).count kv.2 = 1 :=
      List.count_eq_one_of_mem hvalNodup (List.mem_map_of_mem Prod.snd hkv)
    cases hany : p.reflections.any (fun kv => kv.1 == p.root.id) with
    | true => simp [h1]
    | false =>
      have hne : kv.2 ≠ p.root := by
        intro heq
        have : kv.1 = p.root.id := by
          rw [← hids kv hkv, heq]
        exact absurd (hanyIff.mpr ⟨kv, hkv, this⟩) (by simp [hany])
      simp [h1, List.count_cons, hne]
  · rw [validateLinksTrace_eq, List.count_append]
    cases hany : p.reflections.any (fun kv => kv.1 == p.root.id) with
    | true =>
      obtain ⟨kv, hkv, hid⟩ := hanyIff.mp hany
      have hkvroot : kv.2 = p.root := hroot kv hkv hid
      have h1 : (p.reflections.map Prod.snd).count p.root = 1 :=
        List.count_eq_one_of_mem hvalNodup
          (hkvroot ▸ List.mem_map_of_mem Prod.snd hkv)
      simp [h1]
    | false =>
      have hnotmem : p.root ∉ p.reflections.map Prod.snd := by
        intro hmem
        obtain ⟨kv, hkv, heq⟩ := List.mem_map.mp hmem
        have : kv.1 = p.root.id := by rw [← hids kv hkv, heq]
        exact absurd (hanyIff.mpr ⟨kv, hkv, this⟩) (by simp [hany])
      have h0 : (p.reflections.map Prod.snd).count p.root = 0 :=
        List.count_eq_zero.mpr hnotmem
      simp [h0, List.count_cons]

/-- The root of the witness project for the traversal claim. -/
def c3Root : Reflection :=
  { id := 0, friendlyFullName := "Proj", comment := none,
    variant := .project none }

/-- A plain reflection stored in the witness project. -/
def c3A : Reflection :=
  { id := 1, friendlyFullName := "A", comment := none,
    variant := .otherVariant }

/-- A witness project: one stored reflection, root id absent from the keys. -/
def c3Project : ProjectReflection :=
  { root := c3Root, reflections := [(1, c3A)] }

/-- Witness for claim C3 on the concrete project `c3Project`. -/
theorem validateLinks_visits_each_once_witness :
    validateLinks c3Project = (validateLinksTrace c3Project).flatMap checkReflection ∧
    (∀ kv ∈ c3Project.reflections, (validateLinksTrace c3Project).count kv.2 = 1) ∧
    (validateLinksTrace c3Project).count c3Project.root = 1 :=
  validateLinks_visits_each_once c3Project (by decide) (by decide) (by decide)

/-- All broken link texts one reflection reports, over the four sources in
emission order. -/
def reflectionBrokenTexts (r : Reflection) : List String :=
  readmeBrokenTexts r ++ documentBrokenTexts r ++ commentBrokenTexts r
    ++ unionSummaryBrokenTexts r

theorem checkReflection_length (r : Reflection) :
    (checkReflection r).length = (reflectionBrokenTexts r).length := by
  simp [checkReflection, reflectionBrokenTexts, readmeWarnings,
    documentWarnings, commentWarnings, unionSummaryWarnings]

/-- Claim C7: `validateLinks` is a pure diagnostic pass in this embedding —
it returns only the warning list, emitting exactly one warning per broken
link found over the visited reflections, and when no visited reflection has
a broken link it emits nothing at all. -/
theorem validateLinks_pure_diagnostics (p : ProjectReflection) :
    (validateLinks p).length
      = ((validateLinksTrace p).map
          (fun r => (reflectionBrokenTexts r).length)).sum ∧
    ((∀ r ∈ validateLinksTrace p, reflectionBrokenTexts r = []) →
      validateLinks p = []) := by
  have hlen : (validateLinks p).length
      = ((validateLinksTrace p).map
          (fun r => (reflectionBrokenTexts r).length)).sum := by
    rw [validateLinks_eq_trace_flatMap, List.length_flatMap]
    congr 1
    exact List.map_congr_left fun r _ => checkReflection_length r
  refine ⟨hlen, fun hempty => ?_⟩
  apply List.eq_nil_of_length_eq_zero
  rw [hlen]
  apply List.sum_eq_zero
  intro x hx
  obtain ⟨r, hr, rfl⟩ := List.mem_map.mp hx
  rw [hempty r hr]
  rfl

/-- A project with no broken link anywhere. -/
def c7Project : ProjectReflection :=
  { root := { id := 0, friendlyFullName := "Quiet", comment := none,
              variant := .project none },
    reflections := [] }

/-- Witness for claim C7: on the concrete broken-link-free project the pass
emits no warning. -/
theorem validateLinks_pure_diagnostics_witness :
    validateLinks c7Project = [] :=
  (validateLinks_pure_diagnostics c7Project).2 (by decide)

/-- A search-field record: the mapping of custom field name to string value
attached to one search result (`Record<string, string>`), embedded as an
association list. -/
abbrev SearchFieldRecord := List (String × String)

/-- `IndexEvent`: the parallel `searchResults` (declaration or document
reflections) and `searchFields` sequences plus the weight table
(`Record<string, number>`, embedded as an association list). -/
structure IndexEvent where
  searchResults : List Reflection
  searchFields : List SearchFieldRecord
  searchFieldWeights : List (String × Nat)
deriving DecidableEq, Repr

/-- The `IndexEvent` constructor: keep the given results, build one empty
custom-field record per result (`Array.from({length}, () => ({}))`), and
pre-seed the weight table with `name = 10`, `comment = 1`, `document = 1`. -/
def IndexEvent.create (searchResults : List Reflection) : IndexEvent :=
  { searchResults := searchResults,
    searchFields := List.replicate searchResults.length [],
    searchFieldWeights := [("name", 10), ("comment", 1), ("document", 1)] }

/-- `removeResult(index)`: `splice(index, 1)` on both parallel sequences. -/
def IndexEvent.removeResult (e : IndexEvent) (index : Nat) : IndexEvent :=
  { e with
    searchResults := e.searchResults.eraseIdx index,
    searchFields := e.searchFields.eraseIdx index }

/-- Claim C5: on an event whose two parallel sequences both have length `n`,
`removeResult k` for any `k < n` leaves both at length `n - 1`, keeps every
entry below `k` in place in both, and shifts every entry above `k` down by
one in both — order and index-alignment preserved. -/
theorem removeResult_pairing (e : IndexEvent) (n k : Nat)
    (hr : e.searchResults.length = n) (hf : e.searchFields.length = n)
    (hk : k < n) :
    (e.removeResult k).searchResults.length = n - 1 ∧
    (e.removeResult k).searchFields.length = n - 1 ∧
    (∀ j, j < k →
      (e.removeResult k).searchResults[j]? = e.searchResults[j]? ∧
      (e.removeResult k).searchFields[j]? = e.searchFields[j]?) ∧
    (∀ j, k ≤ j →
      (e.removeResult k).searchResults[j]? = e.searchResults[j + 1]? ∧
      (e.removeResult k).searchFields[j]? = e.searchFields[j + 1]?) := by
  unfold IndexEvent.removeResult
  refine ⟨?_, ?_, ?_, ?_⟩
  · simp [List.length_eraseIdx, hr, hk]
  · simp [List.length_eraseIdx, hf, hk]
  · intro j hj
    exact ⟨List.getElem?_eraseIdx_of_lt _ _ _ hj,
      List.getElem?_eraseIdx_of_lt _ _ _ hj⟩
  · intro j hj
    exact ⟨List.getElem?_eraseIdx_of_ge _ _ _ hj,
      List.getElem?_eraseIdx_of_ge _ _ _ hj⟩

/-- A search result entry for the index-event witnesses. -/
def resultA : Reflection :=
  { id := 10, friendlyFullName := "ResA", comment := none,
    variant := .otherVariant }

/-- A second search result entry for the index-event witnesses. -/
def resultB : Reflection :=
  { id := 11, friendlyFullName := "ResB", comment := none,
    variant := .otherVariant }

/-- An index event built from two search results. -/
def c5Event : IndexEvent := IndexEvent.create [resultA, resultB]

/-- Witness for claim C5 on the concrete two-entry event with `k = 0`. -/
theorem removeResult_pairing_witness :
    (c5Event.removeResult 0).searchResults.length = 2 - 1 ∧
    (c5Event.removeResult 0).searchFields.length = 2 - 1 ∧
    (∀ j, j < 0 →
      (c5Event.removeResult 0).searchResults[j]? = c5Event.searchResults[j]? ∧
      (c5Event.removeResult 0).searchFields[j]? = c5Event.searchFields[j]?) ∧
    (∀ j, 0 ≤ j →
      (c5Event.removeResult 0).searchResults[j]? = c5Event.searchResults[j + 1]? ∧
      (c5Event.removeResult 0).searchFields[j]? = c5Event.searchFields[j + 1]?) :=
  removeResult_pairing c5Event 2 0 (by decide) (by decide) (by decide)

/-- Claim C8: an `IndexEvent` built from `n` results starts with exactly `n`
empty custom-field records, index-aligned with the results, and a weight
table holding exactly `name = 10`, `comment = 1`, `document = 1`, making the
name weight ten times the comment and document weights. -/
theorem indexEvent_create_spec (searchResults : List Reflection) :
    (IndexEvent.create searchResults).searchResults = searchResults ∧
    (IndexEvent.create searchResults).searchFields.length
      = searchResults.length ∧
    (∀ i, i < searchResults.length →
      (IndexEvent.create searchResults).searchFields[i]?
        = some ([] : SearchFieldRecord)) ∧
    (IndexEvent.create searchResults).searchFieldWeights
      = [("name", 10), ("comment", 1), ("document", 1)] ∧
    (∀ wn wc wd,
      (IndexEvent.create searchResults).searchFieldWeights.lookup "name"
          = some wn →
      (IndexEvent.create searchResults).searchFieldWeights.lookup "comment"
          = some wc →
      (IndexEvent.create searchResults).searchFieldWeights.lookup "document"
          = some wd →
      wn = 10 * wc ∧ wn = 10 * wd) := by
  refine ⟨rfl, by simp [IndexEvent.create], ?_, rfl, ?_⟩
  · intro i hi
    simp [IndexEvent.create, List.getElem?_replicate, hi]
  · intro wn wc wd h1 h2 h3
    simp [IndexEvent.create, List.lookup] at h1 h2 h3
    omega

/-- Witness for claim C8 on a concrete one-result event. -/
theorem indexEvent_create_spec_witness :
    (IndexEvent.create [resultA]).searchFields[0]?
      = some ([] : SearchFieldRecord) :=
  (indexEvent_create_spec [resultA]).2.2.1 0 (by decide)

/-- A page heading: its link target and text plus the optional level, kind
(the numeric reflection-kind id) and CSS classes. -/
structure PageHeading where
  link : String
  text : String
  level : Option Nat := none
  kind : Option Nat := none
  classes : Option String := none
deriving DecidableEq, Repr

/-- `PageEvent`, restricted to its navigation state.  The source relies on
mutable array aliasing (`pageSections[last].headings` and `pageHeadings` are
the same array object); here that aliasing is structural: `headingArrays` is
a heap of heading arrays in which an array's identity is its index,
`pageHeadings` is the reference to the currently active collector, and each
section stores its title together with the reference of its headings array.
`contents`, `filename`, `url` and `pageKind` are carried along unused by the
sections logic; the generic read-only `model` plays no role here. -/
structure PageEvent where
  headingArrays : List (List PageHeading)
  pageHeadings : Nat
  pageSections : List (String × Nat)
  contents : Option String := none
  filename : Option String := none
  url : Option String := none
  pageKind : Option String := none
deriving DecidableEq, Repr

/-- Construction: `pageHeadings` is a fresh empty array and `pageSections`
holds exactly one section with empty title whose `headings` is that same
array. -/
def PageEvent.new : PageEvent :=
  { headingArrays := [[]], pageHeadings := 0, pageSections := [("", 0)] }

/-- `startNewSection(title)`: allocate a fresh empty headings array, point
`pageHeadings` at it, and push `{title, headings: this.pageHeadings}` onto
`pageSections`. -/
def PageEvent.startNewSection (e : PageEvent) (title : String) : PageEvent :=
  { e with
    headingArrays := e.headingArrays ++ [[]],
    pageHeadings := e.headingArrays.length,
    pageSections := e.pageSections ++ [(title, e.headingArrays.length)] }

/-- The headings array a reference denotes in the event's heap. -/
def PageEvent.headingsAt (e : PageEvent) (ref : Nat) :
    Option (List PageHeading) :=
  e.headingArrays[ref]?

/-- Recording a heading (done by the out-of-scope content generation code):
`this.pageHeadings.push(heading)` mutates the shared array in place. -/
def PageEvent.pushHeading (e : PageEvent) (heading : PageHeading) : PageEvent :=
  { e with
    headingArrays :=
      e.headingArrays.set e.pageHeadings
        ((e.headingArrays.getD e.pageHeadings []) ++ [heading]) }

/-- A sequence of `startNewSection` calls applied in order. -/
def PageEvent.startSections (e : PageEvent) (titles : List String) : PageEvent :=
  titles.foldl PageEvent.startNewSection e

/-- The navigation invariant: the active collector reference is a valid,
still-empty array of the heap, and it is exactly the `headings` reference of
the last section. -/
def PageEvent.navInv (e : PageEvent) : Prop :=
  e.pageHeadings < e.headingArrays.length ∧
  e.headingsAt e.pageHeadings = some [] ∧
  ∃ t, e.pageSections.getLast? = some (t, e.pageHeadings)

theorem navInv_new : PageEvent.navInv PageEvent.new :=
  ⟨by decide, rfl, ⟨"", rfl⟩⟩

theorem navInv_startNewSection (e : PageEvent) (title : String)
    (h : PageEvent.navInv e) :
    PageEvent.navInv (e.startNewSection title) := by
  obtain ⟨-, -, -⟩ := h
  refine ⟨?_, ?_, ⟨title, ?_⟩⟩
  · simp [PageEvent.startNewSection]
  · simp only [PageEvent.startNewSection, PageEvent.headingsAt]
    exact List.getElem?_concat_length e.headingArrays []
  · simp only [PageEvent.startNewSection]
    exact List.getLast?_concat e.pageSections

theorem navInv_startSections (titles : List String) :
    ∀ e : PageEvent, PageEvent.navInv e →
      PageEvent.navInv (e.startSections titles) := by
  induction titles with
  | nil => intro e h; exact h
  | cons title rest ih =>
    intro e h
    exact ih (e.startNewSection title) (navInv_startNewSection e title h)

/-- Claim C6: after construction `pageSections` is exactly one empty-titled
section whose headings array is the event's fresh empty `pageHeadings`;
after any sequence of `startNewSection` calls `pageSections` is nonempty,
the event's `pageHeadings` is the same (fresh, still empty) array as the
`headings` of the last section, and a `startNewSection` call leaves every
earlier section and every existing headings array unchanged. -/
theorem pageEvent_sections_invariant :
    (PageEvent.new.pageSections = [("", 0)] ∧
      PageEvent.new.pageHeadings = 0 ∧
      PageEvent.new.headingsAt 0 = some [] ∧
      PageEvent.new.headingArrays.length = 1) ∧
    (∀ titles : List String,
      (PageEvent.new.startSections titles).pageSections ≠ [] ∧
      (∃ t, (PageEvent.new.startSections titles).pageSections.getLast?
          = some (t, (PageEvent.new.startSections titles).pageHeadings)) ∧
      (PageEvent.new.startSections titles).headingsAt
          (PageEvent.new.startSections titles).pageHeadings = some []) ∧
    (∀ (e : PageEvent) (title : String),
      (∀ i, i < e.pageSections.length →
        (e.startNewSection title).pageSections[i]? = e.pageSections[i]?) ∧
      (∀ ref, ref < e.headingArrays.length →
        (e.startNewSection title).headingsAt ref = e.headingsAt ref)) := by
  refine ⟨⟨rfl, rfl, rfl, rfl⟩, ?_, ?_⟩
  · intro titles
    obtain ⟨h1, h2, t, h3⟩ :=
      navInv_startSections titles PageEvent.new navInv_new
    refine ⟨?_, ⟨t, h3⟩, h2⟩
    intro hnil
    rw [hnil] at h3
    exact Option.noConfusion h3
  · intro e title
    constructor
    · intro i hi
      simp only [PageEvent.startNewSection]
      rw [List.getElem?_append]
      simp [hi]
    · intro ref href
      simp only [PageEvent.startNewSection, PageEvent.headingsAt]
      rw [List.getElem?_append]
      simp [href]

/-- Witness for claim C6: one concrete `startNewSection "B"` call after
construction — the active collector is the fresh empty array referenced by
the new last section, and section 0 is untouched. -/
theorem pageEvent_sections_invariant_witness :
    (PageEvent.new.startSections ["B"]).headingsAt
        (PageEvent.new.startSections ["B"]).pageHeadings = some [] ∧
    (PageEvent.new.startNewSection "B").pageSections[0]?
        = PageEvent.new.pageSections[0]? ∧
    (PageEvent.new.startNewSection "B").headingsAt 0
        = PageEvent.new.headingsAt 0 :=
  ⟨(pageEvent_sections_invariant.2.1 ["B"]).2.2,
   (pageEvent_sections_invariant.2.2 PageEvent.new "B").1 0 (by decide),
   (pageEvent_sections_invariant.2.2 PageEvent.new "B").2 0 (by decide)⟩

theorem pushHeading_into_active_collector (e : PageEvent) (heading : PageHeading)
    (hlt : e.pageHeadings < e.headingArrays.length) :
    (e.pushHeading heading).headingsAt e.pageHeadings
      = some ((e.headingArrays.getD e.pageHeadings []) ++ [heading]) ∧
    (e.pushHeading heading).pageSections = e.pageSections ∧
    (e.pushHeading heading).pageHeadings = e.pageHeadings := by
  refine ⟨?_, rfl, rfl⟩
  simp only [PageEvent.pushHeading, PageEvent.headingsAt]
  exact List.getElem?_set_self hlt

/-- Witness for claim C9: a reflection without a comment yields no
comment-source links (applied at the concrete reflection `c3A`). -/
theorem getBrokenLinks_summary_then_blockTags_witness :
    commentBrokenTexts c3A = [] :=
  (getBrokenLinks_summary_then_blockTags { summary := [], blockTags := [] }).2.2
    c3A rfl
